import Mathlib

/-!
Verification of the join-rewriting pass of a streaming SQL planner
(`crates/arroyo-planner/src/plan/join.rs`).

The development shallowly embeds the pass: logical plan nodes, the window
compatibility checker, the key-projection builder, the timestamp-merge
projection builder, and the bottom-up rewriter driver.  Machine details
that the pass treats as opaque (window descriptors, expression evaluation
by the downstream engine) are modelled explicitly so that the behavioural
contracts can be stated and proved.
-/

namespace ArroyoJoin

/-- Modelled from the spec: the window descriptor produced by the external
window oracle (`arroyo_datastream::WindowType`, not part of the sources
under verification).  It is opaque to the pass except for equality and a
distinguishable `Session` shape. -/
inductive WindowType where
  | Tumbling (width : Nat)
  | Sliding (width slide : Nat)
  | Instant
  | Session (gap : Nat)
deriving DecidableEq, Repr

/-- `datafusion::common::JoinType`. -/
inductive JoinType where
  | Inner | Left | Right | Full | LeftSemi | RightSemi | LeftAnti | RightAnti
deriving DecidableEq, Repr

/-- `datafusion::common::JoinConstraint`. -/
inductive JoinConstraint where
  | On | Using
deriving DecidableEq, Repr

/-- The two error constructors of `DataFusionError` used by the pass:
`DataFusionError::NotImplemented` (via `not_impl_err!`) and
`DataFusionError::Plan` (via `plan_err!`). -/
inductive DFError where
  | notImplemented (msg : String)
  | plan (msg : String)
deriving DecidableEq, Repr

/-- A qualified schema field: relation qualifier, unqualified name, and
field metadata (`DFField` in the planner's helpers). -/
structure DFField where
  qualifier : Option String
  name : String
  metadata : List (String × String)
deriving DecidableEq, Repr

/-- `JoinRewriter::check_join_windowing`, as a function of the two
window-oracle results and the join type (the oracle itself is external).
Mirrors `join.rs` lines 25-62. -/
def check_join_windowing (left_window right_window : Option WindowType)
    (join_type : JoinType) : Except DFError Bool :=
  match left_window, right_window with
  | none, none =>
    if join_type = JoinType.Inner then
      Except.ok false
    else
      Except.error (.notImplemented "can't handle non-inner joins without windows")
  | none, some _ =>
    Except.error (.notImplemented
      "can't handle mixed windowing between left (non-windowed) and right (windowed).")
  | some _, none =>
    Except.error (.notImplemented
      "can't handle mixed windowing between left (windowed) and right (non-windowed).")
  | some lw, some rw =>
    if lw ≠ rw then
      Except.error (.notImplemented "can't handle mixed windowing between left and right")
    else
      match lw with
      | .Session _ =>
        Except.error (.notImplemented "can't handle session windows in joins")
      | _ => Except.ok true

/-- The five verdicts of the spec's windowing decision table (§4.1). -/
inductive SpecVerdict where
  | updating | instant | rejectNonInner | rejectMixed | rejectSession
deriving DecidableEq, Repr

/-- Modelled from the spec: the decision table of §4.1 on
`(left_window, right_window, join_type)`.  Unequal windows (including two
unequal sessions) are classified as mismatched/mixed; only two equal
Session windows hit the session rejection. -/
def spec_decision_table (left_window right_window : Option WindowType)
    (join_type : JoinType) : SpecVerdict :=
  match left_window, right_window with
  | none, none => if join_type = JoinType.Inner then .updating else .rejectNonInner
  | none, some _ => .rejectMixed
  | some _, none => .rejectMixed
  | some a, some b =>
    if a ≠ b then .rejectMixed
    else match a with
      | .Session _ => .rejectSession
      | _ => .instant

/-- Classify a result of `check_join_windowing` into the spec's verdict
space: `ok false` is the updating verdict, `ok true` the instant verdict,
and each error message is mapped to its rejection bucket.  An unexpected
message maps to `none`. -/
def verdict_of_result : Except DFError Bool → Option SpecVerdict
  | Except.ok false => some .updating
  | Except.ok true => some .instant
  | Except.error (.notImplemented m) =>
    if m = "can't handle non-inner joins without windows" then some .rejectNonInner
    else if m = "can't handle session windows in joins" then some .rejectSession
    else if m = "can't handle mixed windowing between left (non-windowed) and right (windowed)."
      ∨ m = "can't handle mixed windowing between left (windowed) and right (non-windowed)."
      ∨ m = "can't handle mixed windowing between left and right" then some .rejectMixed
    else none
  | Except.error (.plan _) => none

/-- The fragment of `datafusion::logical_expr::Expr` constructed by the
pass: column references, boolean scalar literals, the `GtEq` binary
comparison, `CASE ... WHEN`, the `coalesce` scalar function, and aliases.
Key expressions supplied by the caller are carried opaquely as values of
this type. -/
inductive SExpr where
  | column (relation : Option String) (name : String)
  | litBool (b : Option Bool)
  | gtEq (l r : SExpr)
  | caseWhen (operand : SExpr) (when_then : List (SExpr × SExpr)) (else_branch : SExpr)
  | coalesceFn (args : List SExpr)
  | alias (e : SExpr) (relation : Option String) (name : String)
deriving Repr

/-- Runtime values of the fragment: SQL NULL, booleans, and timestamps
(modelled as integers, as only their ordering matters to the pass). -/
inductive SqlValue where
  | vnull
  | vbool (b : Bool)
  | vtime (t : Int)
deriving DecidableEq, Repr

/-- A row environment: the value of each qualified column. -/
def RowEnv : Type := Option String → String → SqlValue

mutual

/-- Modelled from the spec: evaluation of the expression fragment by the
downstream engine, with SQL three-valued semantics — `GtEq` is NULL when
either operand is NULL, `CASE x WHEN v` matches only when the operand is
non-NULL and equal to `v`, and `coalesce` returns the first non-NULL
argument. -/
def evalExpr (env : RowEnv) : SExpr → SqlValue
  | .column r n => env r n
  | .litBool none => .vnull
  | .litBool (some b) => .vbool b
  | .gtEq l r =>
    match evalExpr env l, evalExpr env r with
    | .vtime a, .vtime b => .vbool (decide (b ≤ a))
    | _, _ => .vnull
  | .caseWhen operand when_then else_branch =>
    evalWhens env (evalExpr env operand) when_then else_branch
  | .coalesceFn args => evalCoalesce env args
  | .alias e _ _ => evalExpr env e
termination_by e => sizeOf e
decreasing_by all_goals (simp_wf <;> omega)

/-- Walk the `WHEN ... THEN ...` branches for an operand value `v`. -/
def evalWhens (env : RowEnv) (v : SqlValue) :
    List (SExpr × SExpr) → SExpr → SqlValue
  | [], else_branch => evalExpr env else_branch
  | (w, t) :: rest, else_branch =>
    if v ≠ SqlValue.vnull ∧ evalExpr env w = v then evalExpr env t
    else evalWhens env v rest else_branch
termination_by wts eb => sizeOf wts + sizeOf eb
decreasing_by all_goals (simp_wf <;> omega)

/-- First non-NULL argument, or NULL. -/
def evalCoalesce (env : RowEnv) : List SExpr → SqlValue
  | [] => .vnull
  | a :: rest =>
    match evalExpr env a with
    | .vnull => evalCoalesce env rest
    | v => v
termination_by args => sizeOf args
decreasing_by all_goals (simp_wf <;> omega)

end

/-- The merged-timestamp expression built by
`JoinRewriter::post_join_timestamp_projection` (`join.rs` lines 146-177):
`CASE (left >= right) WHEN true THEN left WHEN false THEN right ELSE
coalesce(left, right)`, where `left` and `right` are column references to
the two timestamp fields. -/
def max_timestamp_expr (left_field right_field : DFField) : SExpr :=
  let left_column := SExpr.column left_field.qualifier left_field.name
  let right_column := SExpr.column right_field.qualifier right_field.name
  SExpr.caseWhen (SExpr.gtEq left_column right_column)
    [(SExpr.litBool (some true), left_column),
     (SExpr.litBool (some false), right_column)]
    (SExpr.coalesceFn [left_column, right_column])

/-- A timestamp value that may be NULL, as a `SqlValue`. -/
def tsVal : Option Int → SqlValue
  | none => .vnull
  | some a => .vtime a

/-- Modelled from the spec: `arroyo_rpc::UPDATING_META_FIELD`, the reserved
updating-meta field name (the constant lives outside the verified sources;
only its role as a distinguished name matters here). -/
def UPDATING_META_FIELD : String := "_updating_meta"

/-- The logical-plan fragment the pass traverses and produces: table
scans, projections, joins, and the two extension nodes the pass emits
(`KeyCalculationExtension` and `JoinExtension`).  Extension nodes are
opaque wrappers (spec §3); `keyCalc` stores the wrapped plan, the key
column indices, and the side name; `joinExt` stores the rewritten join,
`is_instant`, and the optional TTL. -/
inductive LogicalPlan where
  | tableScan (table : String) (fields : List DFField)
  | projection (exprs : List SExpr) (input : LogicalPlan) (fields : List DFField)
  | join (left right : LogicalPlan) (on_ : List (SExpr × SExpr)) (filter : Option SExpr)
      (join_type : JoinType) (join_constraint : JoinConstraint)
      (fields : List DFField) (null_equals_null : Bool)
  | keyCalc (input : LogicalPlan) (keys : List Nat) (name : String)
  | joinExt (rewritten_join : LogicalPlan) (is_instant : Bool) (ttl : Option Nat)
deriving Repr

/-- Modelled from the spec: `KeyCalculationExtension::new_named_and_trimmed`
marks the key columns as trimmed from the user-visible schema, so the
extension's schema is the wrapped plan's schema minus the fields at the
key indices. -/
def trimKeys (fields : List DFField) (keys : List Nat) : List DFField :=
  (fields.enum.filter (fun p => ¬ p.1 ∈ keys)).map (fun p => p.2)

/-- The schema (`fields_with_qualifiers`) of each plan node. -/
def LogicalPlan.schema : LogicalPlan → List DFField
  | .tableScan _ fields => fields
  | .projection _ _ fields => fields
  | .join _ _ _ _ _ _ fields _ => fields
  | .keyCalc input keys _ => trimKeys input.schema keys
  | .joinExt rewritten_join _ _ => rewritten_join.schema

/-- `JoinRewriter::check_updating` (`join.rs` lines 64-78): reject a join
when either input schema has a column with the unqualified updating-meta
name. -/
def check_updating (left right : LogicalPlan) : Except DFError Unit :=
  if left.schema.any (fun f => f.name = UPDATING_META_FIELD) then
    Except.error (.plan "can't handle updating left side of join")
  else if right.schema.any (fun f => f.name = UPDATING_META_FIELD) then
    Except.error (.plan "can't handle updating right side of join")
  else
    Except.ok ()

/-- The schema field produced for the `i`-th key expression of a keyed
projection: `_key_i` under the synthetic `_arroyo` qualifier. -/
def keyField (i : Nat) : DFField :=
  ⟨some "_arroyo", "_key_" ++ toString i, []⟩

/-- `JoinRewriter::create_join_key_plan` (`join.rs` lines 80-114): build a
projection whose expressions are the key expressions aliased
`_key_i` under `_arroyo`, followed by a column reference to every field
of the input schema, and wrap it in a trimmed key-calculation extension
recording the key indices `0..key_count` and the side name.  (The
fallible DataFusion constructor `Projection::try_new` is modelled as
total; its schema is the key fields followed by the input fields.) -/
def create_join_key_plan (input : LogicalPlan) (join_expressions : List SExpr)
    (name : String) : LogicalPlan :=
  let key_count := join_expressions.length
  let exprs :=
    (join_expressions.enum.map
        (fun p => SExpr.alias p.2 (some "_arroyo") ("_key_" ++ toString p.1)))
      ++ input.schema.map (fun f => SExpr.column f.qualifier f.name)
  let proj_fields :=
    (join_expressions.enum.map (fun p => keyField p.1)) ++ input.schema
  LogicalPlan.keyCalc (.projection exprs input proj_fields)
    (List.range key_count) name

/-- `JoinRewriter::post_join_timestamp_projection` (`join.rs` lines
116-189): require exactly two `_timestamp` fields in the input schema;
project every non-timestamp field unchanged, followed by the merged
timestamp aliased to the qualifier and name of the first timestamp field;
the output schema is the non-timestamp fields followed by the first
timestamp field. -/
def post_join_timestamp_projection (input : LogicalPlan) : Except DFError LogicalPlan :=
  match input.schema.filter (fun f => f.name = "_timestamp") with
  | [left_field, right_field] =>
    let retained := input.schema.filter (fun f => ¬ f.name = "_timestamp")
    let projection_expr :=
      retained.map (fun f => SExpr.column f.qualifier f.name)
        ++ [SExpr.alias (max_timestamp_expr left_field right_field)
              left_field.qualifier left_field.name]
    Except.ok (.projection projection_expr input (retained ++ [left_field]))
  | _ => Except.error (.notImplemented "join must have two timestamp fields")

/-- Modelled from the spec: `datafusion::logical_expr::build_join_schema`
— the joined schema is left then right fields for ordinary joins, and a
single side's fields for semi/anti joins. -/
def build_join_schema (l r : List DFField) : JoinType → List DFField
  | .LeftSemi | .LeftAnti => l
  | .RightSemi | .RightAnti => r
  | _ => l ++ r

/-- The planning configuration consumed from the schema provider: only
`planning_options.ttl` is read (modelled as a duration in an abstract
unit). -/
structure PlanningOptions where
  ttl : Nat
deriving DecidableEq, Repr

/-- `datafusion::common::tree_node::Transformed`: a rewritten node plus
the flag saying whether a transformation was applied. -/
structure Transformed (α : Type) where
  data : α
  transformed : Bool
deriving Repr

/-- Constructor discriminator for `Except` results. -/
def exceptIsOk : Except DFError (Transformed LogicalPlan) → Bool
  | Except.ok _ => true
  | Except.error _ => false

/-- `JoinRewriter::f_up` (`join.rs` lines 195-252): non-join nodes pass
through untransformed; a join is classified by `check_join_windowing`
(consulting the window oracle on its inputs), destructured (rejecting any
constraint other than ON and any `null_equals_null = true`), checked for
updating inputs, rejected when updating with an empty `on` list, and
otherwise rebuilt with keyed inputs, a freshly derived join schema, the
timestamp-merge projection, and a `JoinExtension` wrapper whose `ttl` is
present exactly when the join is not instant. -/
def f_up (oracle : LogicalPlan → Option WindowType) (opts : PlanningOptions)
    (node : LogicalPlan) : Except DFError (Transformed LogicalPlan) :=
  match node with
  | .join left right on_ filter join_type join_constraint _fields null_equals_null =>
    match check_join_windowing (oracle left) (oracle right) join_type with
    | Except.error e => Except.error e
    | Except.ok is_instant =>
      match join_constraint, null_equals_null with
      | .On, false =>
        match check_updating left right with
        | Except.error e => Except.error e
        | Except.ok () =>
          if on_.isEmpty && !is_instant then
            Except.error (.notImplemented "Updating joins must include an equijoin condition")
          else
            let left_input := create_join_key_plan left (on_.map Prod.fst) "left"
            let right_input := create_join_key_plan right (on_.map Prod.snd) "right"
            let rewritten_join : LogicalPlan :=
              .join left_input right_input on_ filter join_type .On
                (build_join_schema left_input.schema right_input.schema join_type) false
            match post_join_timestamp_projection rewritten_join with
            | Except.error e => Except.error e
            | Except.ok final_plan =>
              Except.ok ⟨.joinExt final_plan is_instant
                  (if is_instant then none else some opts.ttl), true⟩
      | _, _ =>
        Except.error (.notImplemented "can't handle join constraint other than ON")
  | n => Except.ok ⟨n, false⟩

/-- Modelled from the spec: the tree-traversal glue (§4.5) — a post-order
walk that recurses into children, rebuilds each node with its rewritten
children, and invokes `f_up` on the result.  Extension nodes are opaque
wrappers (§3), so the traversal does not enter their contents. -/
def rewrite (oracle : LogicalPlan → Option WindowType) (opts : PlanningOptions) :
    LogicalPlan → Except DFError (Transformed LogicalPlan)
  | .tableScan t fields => f_up oracle opts (.tableScan t fields)
  | .projection exprs input fields => do
    let ti ← rewrite oracle opts input
    let t ← f_up oracle opts (.projection exprs ti.data fields)
    Except.ok ⟨t.data, ti.transformed || t.transformed⟩
  | .join left right on_ filter jt jc fields neq => do
    let tl ← rewrite oracle opts left
    let tr ← rewrite oracle opts right
    let t ← f_up oracle opts (.join tl.data tr.data on_ filter jt jc fields neq)
    Except.ok ⟨t.data, tl.transformed || tr.transformed || t.transformed⟩
  | .keyCalc input keys name => f_up oracle opts (.keyCalc input keys name)
  | .joinExt rj inst ttl => f_up oracle opts (.joinExt rj inst ttl)

/-- Is the node a `Join` variant? -/
def isJoin : LogicalPlan → Bool
  | .join _ _ _ _ _ _ _ _ => true
  | _ => false

/-- Does the traversal-visible tree contain no `Join` variant?  (Extension
contents are opaque to the traversal.) -/
def noJoins : LogicalPlan → Bool
  | .tableScan _ _ => true
  | .projection _ input _ => noJoins input
  | .join _ _ _ _ _ _ _ _ => false
  | .keyCalc _ _ _ => true
  | .joinExt _ _ _ => true

/-- Shape of a successful `f_up` on a join node: the windowing check
succeeded, the constraint was ON with `null_equals_null = false`, the
updating check passed, an empty `on` list forces the instant verdict, and
the result is a transformed `JoinExtension` whose TTL is absent exactly
on instant joins. -/
theorem f_up_join_ok (oracle : LogicalPlan → Option WindowType) (opts : PlanningOptions)
    (l r : LogicalPlan) (on_ : List (SExpr × SExpr)) (fil : Option SExpr)
    (jt : JoinType) (jc : JoinConstraint) (fields : List DFField) (neq : Bool)
    (t : Transformed LogicalPlan)
    (h : f_up oracle opts (.join l r on_ fil jt jc fields neq) = .ok t) :
    ∃ final inst,
      check_join_windowing (oracle l) (oracle r) jt = .ok inst ∧
      jc = .On ∧ neq = false ∧
      check_updating l r = .ok () ∧
      (on_ = [] → inst = true) ∧
      t = ⟨.joinExt final inst (if inst then none else some opts.ttl), true⟩ := by
  simp only [f_up] at h
  cases hw : check_join_windowing (oracle l) (oracle r) jt with
  | error e => rw [hw] at h; simp at h
  | ok is_instant =>
    rw [hw] at h
    cases jc with
    | Using => simp at h
    | On =>
      cases neq with
      | true => simp at h
      | false =>
        cases hu : check_updating l r with
        | error e => rw [hu] at h; simp at h
        | ok u =>
          rw [hu] at h
          cases u
          dsimp only at h
          by_cases hon : (on_.isEmpty && !is_instant) = true
          · rw [if_pos hon] at h; simp at h
          · rw [if_neg hon] at h
            cases hp : post_join_timestamp_projection
                (.join (create_join_key_plan l (on_.map Prod.fst) "left")
                  (create_join_key_plan r (on_.map Prod.snd) "right") on_ fil jt .On
                  (build_join_schema (create_join_key_plan l (on_.map Prod.fst) "left").schema
                    (create_join_key_plan r (on_.map Prod.snd) "right").schema jt) false) with
            | error e => rw [hp] at h; simp at h
            | ok final_plan =>
              rw [hp] at h
              injection h with h2
              refine ⟨final_plan, is_instant, rfl, rfl, rfl, rfl, ?_, h2.symm⟩
              intro hone
              subst hone
              simp at hon
              exact hon

end ArroyoJoin

namespace ArroyoJoin

/-- Claim C1: for every pair of window-oracle results and every join type,
the classification of `check_join_windowing` follows the spec's decision
table: both unwindowed gives updating for Inner and the non-inner
rejection otherwise; exactly one windowed gives a mixed-windowing
rejection; both windowed but unequal gives a mismatched/mixed rejection;
equal Session windows give the session rejection; equal non-Session
windows give the instant verdict. -/
theorem check_join_windowing_follows_spec_table
    (lw rw : Option WindowType) (jt : JoinType) :
    verdict_of_result (check_join_windowing lw rw jt) =
      some (spec_decision_table lw rw jt) := by
  cases lw with
  | none =>
    cases rw with
    | none =>
      cases jt <;> simp [check_join_windowing, spec_decision_table, verdict_of_result]
    | some w =>
      simp [check_join_windowing, spec_decision_table, verdict_of_result]
  | some a =>
    cases rw with
    | none =>
      simp [check_join_windowing, spec_decision_table, verdict_of_result]
    | some b =>
      by_cases hab : a = b
      · subst hab
        cases a <;>
          simp [check_join_windowing, spec_decision_table, verdict_of_result]
      · simp [check_join_windowing, spec_decision_table, verdict_of_result, hab]

/-- Claim C2: for every pair of left and right timestamp values, the
merged-timestamp expression built by the post-join timestamp projection
evaluates to the greater of the two when both are non-NULL, to the
non-NULL operand when exactly one is NULL, and to NULL when both are
NULL. -/
theorem max_timestamp_merge_semantics (lf rf : DFField) (env : RowEnv)
    (l r : Option Int)
    (hl : env lf.qualifier lf.name = tsVal l)
    (hr : env rf.qualifier rf.name = tsVal r) :
    evalExpr env (max_timestamp_expr lf rf) =
      match l, r with
      | some a, some b => SqlValue.vtime (max a b)
      | some a, none => SqlValue.vtime a
      | none, some b => SqlValue.vtime b
      | none, none => SqlValue.vnull := by
  rcases l with _ | a <;> rcases r with _ | b <;>
    simp [max_timestamp_expr, evalExpr, evalWhens, evalCoalesce, hl, hr, tsVal]
  by_cases hba : b ≤ a
  · simp [hba, max_eq_left hba]
  · simp [hba, max_eq_right (le_of_not_le hba)]

/-- Witness for C2 at concrete inputs: left timestamp 10, right 7 merge
to 10; left NULL, right 5 merge to 5. -/
theorem max_timestamp_merge_semantics_witness :
    evalExpr
        (fun q n =>
          if q = some "L" ∧ n = "_timestamp" then SqlValue.vtime 10
          else if q = some "R" ∧ n = "_timestamp" then SqlValue.vtime 7
          else SqlValue.vnull)
        (max_timestamp_expr ⟨some "L", "_timestamp", []⟩ ⟨some "R", "_timestamp", []⟩)
      = SqlValue.vtime 10 ∧
    evalExpr
        (fun q n =>
          if q = some "L" ∧ n = "_timestamp" then SqlValue.vnull
          else if q = some "R" ∧ n = "_timestamp" then SqlValue.vtime 5
          else SqlValue.vnull)
        (max_timestamp_expr ⟨some "L", "_timestamp", []⟩ ⟨some "R", "_timestamp", []⟩)
      = SqlValue.vtime 5 := by
  constructor
  · exact max_timestamp_merge_semantics ⟨some "L", "_timestamp", []⟩
      ⟨some "R", "_timestamp", []⟩ _ (some 10) (some 7) (by simp [tsVal]) (by simp [tsVal])
  · exact max_timestamp_merge_semantics ⟨some "L", "_timestamp", []⟩
      ⟨some "R", "_timestamp", []⟩ _ none (some 5) (by simp [tsVal]) (by simp [tsVal])


/-- The windowing check classifies a join as updating only when both
inputs are unwindowed and the join type is Inner. -/
theorem check_join_windowing_ok_false (lw rw : Option WindowType) (jt : JoinType)
    (h : check_join_windowing lw rw jt = .ok false) :
    jt = JoinType.Inner ∧ lw = none ∧ rw = none := by
  cases lw with
  | none =>
    cases rw with
    | none =>
      by_cases hjt : jt = JoinType.Inner
      · exact ⟨hjt, rfl, rfl⟩
      · simp [check_join_windowing, hjt] at h
    | some w => simp [check_join_windowing] at h
  | some a =>
    cases rw with
    | none => simp [check_join_windowing] at h
    | some b =>
      by_cases hab : a = b
      · subst hab
        cases a <;> simp [check_join_windowing] at h
      · simp [check_join_windowing, hab] at h

/-- Claim C6: for every join accepted by the pass, the streaming-join
extension produced has `ttl = none` iff `is_instant = true`; when
`is_instant = false`, the TTL is present and equals the planning
configuration TTL. -/
theorem join_extension_ttl (oracle : LogicalPlan → Option WindowType)
    (opts : PlanningOptions) (l r : LogicalPlan) (on_ : List (SExpr × SExpr))
    (fil : Option SExpr) (jt : JoinType) (jc : JoinConstraint)
    (fields : List DFField) (neq : Bool) (t : Transformed LogicalPlan)
    (h : f_up oracle opts (.join l r on_ fil jt jc fields neq) = .ok t) :
    ∃ final inst ttl, t.data = .joinExt final inst ttl ∧
      (ttl = none ↔ inst = true) ∧ (inst = false → ttl = some opts.ttl) := by
  obtain ⟨final, inst, -, -, -, -, -, ht⟩ :=
    f_up_join_ok oracle opts l r on_ fil jt jc fields neq t h
  subst ht
  refine ⟨final, inst, _, rfl, ?_, ?_⟩ <;> cases inst <;> simp

/-- Witness for C6: an unwindowed inner equi-join is accepted, and its
extension carries `is_instant = false` with `ttl = some 300`. -/
theorem join_extension_ttl_witness :
    ∃ t, f_up (fun _ => none) ⟨300⟩
        (.join (.tableScan "A" [⟨some "A", "k", []⟩, ⟨some "A", "_timestamp", []⟩])
          (.tableScan "B" [⟨some "B", "k", []⟩, ⟨some "B", "_timestamp", []⟩])
          [(SExpr.column (some "A") "k", SExpr.column (some "B") "k")]
          none .Inner .On [] false) = .ok t ∧
      ∃ final inst ttl, t.data = .joinExt final inst ttl ∧
        (ttl = none ↔ inst = true) ∧ (inst = false → ttl = some 300) := by
  cases hres : f_up (fun _ => none) ⟨300⟩
      (.join (.tableScan "A" [⟨some "A", "k", []⟩, ⟨some "A", "_timestamp", []⟩])
        (.tableScan "B" [⟨some "B", "k", []⟩, ⟨some "B", "_timestamp", []⟩])
        [(SExpr.column (some "A") "k", SExpr.column (some "B") "k")]
        none .Inner .On [] false) with
  | error e =>
    have hok : exceptIsOk (f_up (fun _ => none) ⟨300⟩
        (.join (.tableScan "A" [⟨some "A", "k", []⟩, ⟨some "A", "_timestamp", []⟩])
          (.tableScan "B" [⟨some "B", "k", []⟩, ⟨some "B", "_timestamp", []⟩])
          [(SExpr.column (some "A") "k", SExpr.column (some "B") "k")]
          none .Inner .On [] false)) = true := rfl
    rw [hres] at hok
    simp [exceptIsOk] at hok
  | ok t =>
    exact ⟨t, rfl, join_extension_ttl (fun _ => none) ⟨300⟩ _ _ _ _ _ _ _ _ t hres⟩

/-- Claim C7: an accepted join whose extension records
`is_instant = false` has join type Inner and a non-empty `on` list; and a
join classified as updating whose `on` list is empty (with the other
checks passing) is rejected with the missing-equijoin error. -/
theorem updating_join_invariant (oracle : LogicalPlan → Option WindowType)
    (opts : PlanningOptions) :
    (∀ (l r : LogicalPlan) (on_ : List (SExpr × SExpr)) (fil : Option SExpr)
        (jt : JoinType) (jc : JoinConstraint) (fields : List DFField) (neq : Bool)
        (t : Transformed LogicalPlan) (final : LogicalPlan) (ttl : Option Nat),
      f_up oracle opts (.join l r on_ fil jt jc fields neq) = .ok t →
      t.data = .joinExt final false ttl →
      jt = JoinType.Inner ∧ on_ ≠ []) ∧
    (∀ (l r : LogicalPlan) (fil : Option SExpr) (jt : JoinType) (fields : List DFField),
      check_join_windowing (oracle l) (oracle r) jt = .ok false →
      check_updating l r = .ok () →
      f_up oracle opts (.join l r [] fil jt .On fields false) =
        .error (.notImplemented "Updating joins must include an equijoin condition")) := by
  constructor
  · intro l r on_ fil jt jc fields neq t final ttl h hdata
    obtain ⟨final2, inst, hw, -, -, -, hone, ht⟩ :=
      f_up_join_ok oracle opts l r on_ fil jt jc fields neq t h
    subst ht
    simp only at hdata
    have hinst : inst = false := by
      cases hdata
      rfl
    subst hinst
    refine ⟨(check_join_windowing_ok_false _ _ _ hw).1, ?_⟩
    intro hnil
    exact absurd (hone hnil) (by simp)
  · intro l r fil jt fields hw hu
    simp only [f_up, hw, hu]
    rfl

/-- Witness for C7: the accepted updating join of the C6 scenario is
Inner with non-empty `on`; dropping its `on` list yields the
missing-equijoin error. -/
theorem updating_join_invariant_witness :
    (JoinType.Inner = JoinType.Inner ∧
      ([(SExpr.column (some "A") "k", SExpr.column (some "B") "k")] :
        List (SExpr × SExpr)) ≠ []) ∧
    f_up (fun _ => none) ⟨300⟩
        (.join (.tableScan "A" [⟨some "A", "k", []⟩, ⟨some "A", "_timestamp", []⟩])
          (.tableScan "B" [⟨some "B", "k", []⟩, ⟨some "B", "_timestamp", []⟩])
          [] none .Inner .On [] false) =
      .error (.notImplemented "Updating joins must include an equijoin condition") := by
  constructor
  · cases hres : f_up (fun _ => none) ⟨300⟩
        (.join (.tableScan "A" [⟨some "A", "k", []⟩, ⟨some "A", "_timestamp", []⟩])
          (.tableScan "B" [⟨some "B", "k", []⟩, ⟨some "B", "_timestamp", []⟩])
          [(SExpr.column (some "A") "k", SExpr.column (some "B") "k")]
          none .Inner .On [] false) with
    | error e =>
      have hok : exceptIsOk (f_up (fun _ => none) ⟨300⟩
          (.join (.tableScan "A" [⟨some "A", "k", []⟩, ⟨some "A", "_timestamp", []⟩])
            (.tableScan "B" [⟨some "B", "k", []⟩, ⟨some "B", "_timestamp", []⟩])
            [(SExpr.column (some "A") "k", SExpr.column (some "B") "k")]
            none .Inner .On [] false)) = true := rfl
      rw [hres] at hok
      simp [exceptIsOk] at hok
    | ok t =>
      obtain ⟨final, inst, hw, -, -, -, -, ht⟩ :=
        f_up_join_ok _ _ _ _ _ _ _ _ _ _ t hres
      have hif : (Except.ok inst : Except DFError Bool) = Except.ok false :=
        hw.symm.trans rfl
      injection hif with hinst
      subst hinst
      exact (updating_join_invariant (fun _ => none) ⟨300⟩).1 _ _ _ _ _ _ _ _ t final _
        hres (by rw [ht])
  · exact (updating_join_invariant (fun _ => none) ⟨300⟩).2 _ _ _ _ _ rfl rfl



/-- Claim C3: the timestamp-merge step returns the error "join must have
two timestamp fields" if and only if the number of fields of the joined
schema whose unqualified name is `_timestamp` is not exactly two. -/
theorem timestamp_count_error_iff (input : LogicalPlan) :
    post_join_timestamp_projection input =
        .error (.notImplemented "join must have two timestamp fields") ↔
      (input.schema.filter (fun f => f.name = "_timestamp")).length ≠ 2 := by
  rcases hfs : input.schema.filter (fun f => f.name = "_timestamp") with
    _ | ⟨a, _ | ⟨b, _ | ⟨c, rest⟩⟩⟩ <;>
    simp [post_join_timestamp_projection, hfs]

/-- Claim C5: on a joined schema with exactly two `_timestamp` fields, the
timestamp-merge projection outputs every non-timestamp field in original
order with original qualifiers, followed by a single trailing field that
is the first (left) timestamp field itself — hence named `_timestamp` and
inheriting its qualifier and metadata — and the merged-timestamp
expression is aliased to that field's qualifier and name. -/
theorem timestamp_merge_output_schema (input : LogicalPlan) (lf rf : DFField)
    (h : input.schema.filter (fun f => f.name = "_timestamp") = [lf, rf]) :
    lf.name = "_timestamp" ∧
    post_join_timestamp_projection input =
      .ok (.projection
        ((input.schema.filter (fun f => ¬ f.name = "_timestamp")).map
            (fun f => SExpr.column f.qualifier f.name)
          ++ [SExpr.alias (max_timestamp_expr lf rf) lf.qualifier lf.name])
        input
        (input.schema.filter (fun f => ¬ f.name = "_timestamp") ++ [lf])) := by
  constructor
  · have hmem : lf ∈ input.schema.filter (fun f => f.name = "_timestamp") := by
      rw [h]
      simp
    simpa using (List.mem_filter.mp hmem).2
  · unfold post_join_timestamp_projection
    rw [h]

/-- Witness for C5 at a concrete four-column joined schema. -/
theorem timestamp_merge_output_schema_witness :
    (⟨some "A", "_timestamp", []⟩ : DFField).name = "_timestamp" ∧
    post_join_timestamp_projection
        (.tableScan "J"
          [⟨some "A", "k", []⟩, ⟨some "A", "_timestamp", []⟩,
           ⟨some "B", "k", []⟩, ⟨some "B", "_timestamp", []⟩]) =
      .ok (.projection
        (((LogicalPlan.tableScan "J"
            [⟨some "A", "k", []⟩, ⟨some "A", "_timestamp", []⟩,
             ⟨some "B", "k", []⟩, ⟨some "B", "_timestamp", []⟩]).schema.filter
              (fun f => ¬ f.name = "_timestamp")).map
            (fun f => SExpr.column f.qualifier f.name)
          ++ [SExpr.alias
                (max_timestamp_expr ⟨some "A", "_timestamp", []⟩ ⟨some "B", "_timestamp", []⟩)
                (some "A") "_timestamp"])
        (.tableScan "J"
          [⟨some "A", "k", []⟩, ⟨some "A", "_timestamp", []⟩,
           ⟨some "B", "k", []⟩, ⟨some "B", "_timestamp", []⟩])
        ((LogicalPlan.tableScan "J"
            [⟨some "A", "k", []⟩, ⟨some "A", "_timestamp", []⟩,
             ⟨some "B", "k", []⟩, ⟨some "B", "_timestamp", []⟩]).schema.filter
              (fun f => ¬ f.name = "_timestamp")
          ++ [⟨some "A", "_timestamp", []⟩])) :=
  timestamp_merge_output_schema
    (.tableScan "J"
      [⟨some "A", "k", []⟩, ⟨some "A", "_timestamp", []⟩,
       ⟨some "B", "k", []⟩, ⟨some "B", "_timestamp", []⟩])
    ⟨some "A", "_timestamp", []⟩ ⟨some "B", "_timestamp", []⟩ (by decide)



/-- Claim C4: the keyed plan built for one join side is a key-calculation
extension over a projection whose expressions are, in order, the i-th key
expression aliased `_key_i` under the `_arroyo` qualifier for each i,
followed by a column reference to every field of the input schema under
its original qualifier and name; the extension records exactly the index
set 0..k-1 and the given side name. -/
theorem create_join_key_plan_structure (input : LogicalPlan) (es : List SExpr)
    (nm : String) :
    ∃ exprs pfields,
      create_join_key_plan input es nm =
        .keyCalc (.projection exprs input pfields) (List.range es.length) nm ∧
      exprs.length = es.length + input.schema.length ∧
      (∀ (i : Nat) (e : SExpr), es[i]? = some e →
        exprs[i]? = some (SExpr.alias e (some "_arroyo") ("_key_" ++ toString i))) ∧
      exprs.drop es.length = input.schema.map (fun f => SExpr.column f.qualifier f.name) := by
  refine ⟨_, _, rfl, ?_, ?_, ?_⟩
  · simp [List.enum_length]
  · intro i e h
    have hi : i < es.length := by
      by_contra hge
      rw [List.getElem?_eq_none (by omega)] at h
      exact Option.noConfusion h
    rw [List.getElem?_append_left (by simpa [List.enum_length] using hi)]
    rw [List.getElem?_map, List.getElem?_enum, h]
    rfl
  · have hlen : (es.enum.map
        (fun p => SExpr.alias p.2 (some "_arroyo") ("_key_" ++ toString p.1))).length
        = es.length := by
      simp [List.enum_length]
    rw [← hlen, List.drop_left]

/-- Witness for C4 at a one-key scenario: the first projection expression
is the key expression aliased `_key_0` under `_arroyo`. -/
theorem create_join_key_plan_structure_witness :
    ∃ exprs pfields,
      create_join_key_plan (.tableScan "A" [⟨some "A", "k", []⟩])
          [SExpr.column (some "A") "k"] "left" =
        .keyCalc (.projection exprs (.tableScan "A" [⟨some "A", "k", []⟩]) pfields)
          (List.range 1) "left" ∧
      exprs[0]? = some (SExpr.alias (SExpr.column (some "A") "k")
        (some "_arroyo") ("_key_" ++ toString 0)) := by
  obtain ⟨exprs, pfields, h1, -, h3, -⟩ :=
    create_join_key_plan_structure (.tableScan "A" [⟨some "A", "k", []⟩])
      [SExpr.column (some "A") "k"] "left"
  exact ⟨exprs, pfields, h1, h3 0 _ rfl⟩



/-- `check_updating` only ever fails with a `Plan` error. -/
theorem check_updating_error_is_plan (l r : LogicalPlan) (e : DFError)
    (h : check_updating l r = .error e) : ∃ m, e = DFError.plan m := by
  unfold check_updating at h
  split at h
  · injection h with h2
    exact ⟨_, h2.symm⟩
  · split at h
    · injection h with h2
      exact ⟨_, h2.symm⟩
    · exact absurd h (by simp)

/-- `post_join_timestamp_projection` only ever fails with the
two-timestamp-fields error. -/
theorem post_join_error_msg (input : LogicalPlan) (e : DFError)
    (h : post_join_timestamp_projection input = .error e) :
    e = .notImplemented "join must have two timestamp fields" := by
  unfold post_join_timestamp_projection at h
  split at h
  · exact absurd h (by simp)
  · injection h with h2
    exact h2.symm

/-- Counterexample to claim C8 as stated: a join whose constraint is
`Using` (not ON) and whose left input schema carries the updating-meta
field is rejected with the constraint error, not the updating-input
error. -/
theorem updating_check_order_counterexample :
    (LogicalPlan.tableScan "A"
        [⟨some "A", UPDATING_META_FIELD, []⟩, ⟨some "A", "_timestamp", []⟩]).schema.any
      (fun f => f.name = UPDATING_META_FIELD) = true ∧
    f_up (fun _ => none) ⟨300⟩
        (.join
          (.tableScan "A" [⟨some "A", UPDATING_META_FIELD, []⟩, ⟨some "A", "_timestamp", []⟩])
          (.tableScan "B" [⟨some "B", "k", []⟩, ⟨some "B", "_timestamp", []⟩])
          [] none .Inner .Using [] false) =
      .error (.notImplemented "can't handle join constraint other than ON") ∧
    (Except.error (.notImplemented "can't handle join constraint other than ON") :
        Except DFError (Transformed LogicalPlan)) ≠
      Except.error (.plan "can't handle updating left side of join") :=
  ⟨rfl, rfl, by simp⟩

/-- Claim C8 (amended): after the windowing classification, the
structural destructuring of the join (ON constraint and
`null_equals_null = false`) is applied before the updating-meta
rejection: whenever the windowing check succeeds and the join has a
non-ON constraint or `null_equals_null = true`, `f_up` returns the
constraint error, regardless of whether an input schema carries the
updating-meta field. -/
theorem constraint_check_precedes_updating_check
    (oracle : LogicalPlan → Option WindowType) (opts : PlanningOptions)
    (l r : LogicalPlan) (on_ : List (SExpr × SExpr)) (fil : Option SExpr)
    (jt : JoinType) (jc : JoinConstraint) (fields : List DFField) (neq : Bool)
    (b : Bool)
    (hw : check_join_windowing (oracle l) (oracle r) jt = .ok b)
    (hc : jc ≠ JoinConstraint.On ∨ neq = true) :
    f_up oracle opts (.join l r on_ fil jt jc fields neq) =
      .error (.notImplemented "can't handle join constraint other than ON") := by
  simp only [f_up, hw]
  rcases hc with hc | hc
  · cases jc
    · exact absurd rfl hc
    · cases neq <;> rfl
  · subst hc
    cases jc <;> rfl

/-- Witness for the amended C8: the counterexample input, rejected with
the constraint error. -/
theorem constraint_check_precedes_updating_check_witness :
    f_up (fun _ => none) ⟨300⟩
        (.join
          (.tableScan "A" [⟨some "A", UPDATING_META_FIELD, []⟩, ⟨some "A", "_timestamp", []⟩])
          (.tableScan "B" [⟨some "B", "k", []⟩, ⟨some "B", "_timestamp", []⟩])
          [] none .Inner .Using [] false) =
      .error (.notImplemented "can't handle join constraint other than ON") :=
  constraint_check_precedes_updating_check (fun _ => none) ⟨300⟩
    _ _ _ _ .Inner .Using _ false false rfl (Or.inl (by decide))

/-- Claim C10: a join classified as instant is never rejected with the
missing-equijoin error even when `on` is empty, and the keyed plan built
from an empty key list is a key-calculation extension recording the
empty index set over a projection containing exactly the input's
original columns, with no prepended key columns. -/
theorem instant_join_empty_on (oracle : LogicalPlan → Option WindowType)
    (opts : PlanningOptions) (l r : LogicalPlan) (fil : Option SExpr)
    (jt : JoinType) (jc : JoinConstraint) (fields : List DFField) (neq : Bool)
    (hw : check_join_windowing (oracle l) (oracle r) jt = .ok true) :
    f_up oracle opts (.join l r [] fil jt jc fields neq) ≠
      .error (.notImplemented "Updating joins must include an equijoin condition") ∧
    (∀ (input : LogicalPlan) (nm : String),
      create_join_key_plan input [] nm =
        .keyCalc
          (.projection (input.schema.map (fun f => SExpr.column f.qualifier f.name))
            input input.schema) [] nm) := by
  refine ⟨?_, fun input nm => rfl⟩
  simp only [f_up, hw]
  cases jc with
  | Using => cases neq <;> simp
  | On =>
    cases neq with
    | true => simp
    | false =>
      cases hu : check_updating l r with
      | error e =>
        obtain ⟨m, hm⟩ := check_updating_error_is_plan l r e hu
        subst hm
        simp
      | ok u =>
        cases u
        simp only [List.isEmpty_nil, Bool.not_true, Bool.and_false]
        cases hp : post_join_timestamp_projection
            (.join (create_join_key_plan l (([] : List (SExpr × SExpr)).map Prod.fst) "left")
              (create_join_key_plan r (([] : List (SExpr × SExpr)).map Prod.snd) "right")
              [] fil jt .On
              (build_join_schema
                (create_join_key_plan l (([] : List (SExpr × SExpr)).map Prod.fst) "left").schema
                (create_join_key_plan r (([] : List (SExpr × SExpr)).map Prod.snd) "right").schema
                jt) false) with
        | error e =>
          have := post_join_error_msg _ _ hp
          subst this
          simp
        | ok final_plan =>
          simp

/-- Witness for C10: a full outer join of two identically tumbling-
windowed inputs with an empty `on` list is not rejected for a missing
equijoin, and the empty-key keyed plan on a one-column input. -/
theorem instant_join_empty_on_witness :
    f_up (fun _ => some (WindowType.Tumbling 60)) ⟨300⟩
        (.join (.tableScan "A" [⟨some "A", "k", []⟩, ⟨some "A", "_timestamp", []⟩])
          (.tableScan "B" [⟨some "B", "k", []⟩, ⟨some "B", "_timestamp", []⟩])
          [] none .Full .On [] false) ≠
      .error (.notImplemented "Updating joins must include an equijoin condition") ∧
    create_join_key_plan (.tableScan "A" [⟨some "A", "k", []⟩]) [] "left" =
      .keyCalc (.projection [SExpr.column (some "A") "k"]
        (.tableScan "A" [⟨some "A", "k", []⟩]) [⟨some "A", "k", []⟩]) [] "left" := by
  have h := instant_join_empty_on (fun _ => some (WindowType.Tumbling 60)) ⟨300⟩
    (.tableScan "A" [⟨some "A", "k", []⟩, ⟨some "A", "_timestamp", []⟩])
    (.tableScan "B" [⟨some "B", "k", []⟩, ⟨some "B", "_timestamp", []⟩])
    none .Full .On [] false rfl
  exact ⟨h.1, h.2 (.tableScan "A" [⟨some "A", "k", []⟩]) "left"⟩



/-- `f_up` leaves every non-join node unchanged and untransformed. -/
theorem f_up_non_join (oracle : LogicalPlan → Option WindowType)
    (opts : PlanningOptions) (n : LogicalPlan) (h : isJoin n = false) :
    f_up oracle opts n = .ok ⟨n, false⟩ := by
  cases n <;> first | rfl | simp [isJoin] at h

/-- A successful bind on `Except` factors through a successful first
step. -/
theorem except_bind_ok {α β : Type} (x : Except DFError α)
    (f : α → Except DFError β) (b : β) (h : (x >>= f) = .ok b) :
    ∃ a, x = .ok a ∧ f a = .ok b := by
  cases x with
  | error e => simp [Bind.bind, Except.bind] at h
  | ok a => exact ⟨a, rfl, by simpa [Bind.bind, Except.bind] using h⟩

/-- The traversal is the identity (and untransforming) on plans with no
visible joins. -/
theorem rewrite_noJoins_fix (oracle : LogicalPlan → Option WindowType)
    (opts : PlanningOptions) :
    ∀ p : LogicalPlan, noJoins p = true → rewrite oracle opts p = .ok ⟨p, false⟩ := by
  intro p
  induction p with
  | tableScan tb fields => intro _; rfl
  | projection e i s ih =>
    intro h
    simp only [noJoins] at h
    simp only [rewrite, ih h]
    rfl
  | join l r o f jt jc s neq ihl ihr =>
    intro h
    simp [noJoins] at h
  | keyCalc i k n _ih => intro _; rfl
  | joinExt rj inst ttl _ih => intro _; rfl

/-- Every successful traversal result has no visible joins: joins are
replaced by (opaque) streaming-join extensions. -/
theorem rewrite_result_noJoins (oracle : LogicalPlan → Option WindowType)
    (opts : PlanningOptions) :
    ∀ (p : LogicalPlan) (t : Transformed LogicalPlan),
      rewrite oracle opts p = .ok t → noJoins t.data = true := by
  intro p
  induction p with
  | tableScan tb fields =>
    intro t h
    injection h with h2
    rw [← h2]
    rfl
  | projection e i s ih =>
    intro t h
    simp only [rewrite] at h
    obtain ⟨ti, hri, h2⟩ := except_bind_ok _ _ _ h
    obtain ⟨t2, hf, h3⟩ := except_bind_ok _ _ _ h2
    injection hf with h4
    injection h3 with h5
    rw [← h5, ← h4]
    exact ih ti hri
  | join l r o f jt jc s neq _ihl _ihr =>
    intro t h
    simp only [rewrite] at h
    obtain ⟨tl, hrl, h2⟩ := except_bind_ok _ _ _ h
    obtain ⟨tr, hrr, h3⟩ := except_bind_ok _ _ _ h2
    obtain ⟨t3, hf, h4⟩ := except_bind_ok _ _ _ h3
    obtain ⟨final, inst, -, -, -, -, -, ht⟩ :=
      f_up_join_ok oracle opts tl.data tr.data o f jt jc s neq t3 hf
    injection h4 with h5
    rw [← h5, ht]
    rfl
  | keyCalc i k n _ih =>
    intro t h
    injection h with h2
    rw [← h2]
    rfl
  | joinExt rj inst ttl _ih =>
    intro t h
    injection h with h2
    rw [← h2]
    rfl

/-- Claim C9: the rewriter returns every non-join node — including the
streaming-join extension nodes it produces — unchanged with no
transformation signalled; a plan containing no joins is returned
structurally unchanged; and running the pass a second time on any
successful output is a no-op. -/
theorem rewrite_pass_through_and_idempotent
    (oracle : LogicalPlan → Option WindowType) (opts : PlanningOptions) :
    (∀ n : LogicalPlan, isJoin n = false → f_up oracle opts n = .ok ⟨n, false⟩) ∧
    (∀ p : LogicalPlan, noJoins p = true → rewrite oracle opts p = .ok ⟨p, false⟩) ∧
    (∀ (p : LogicalPlan) (t : Transformed LogicalPlan),
      rewrite oracle opts p = .ok t → rewrite oracle opts t.data = .ok ⟨t.data, false⟩) := by
  refine ⟨f_up_non_join oracle opts, rewrite_noJoins_fix oracle opts, ?_⟩
  intro p t h
  exact rewrite_noJoins_fix oracle opts t.data (rewrite_result_noJoins oracle opts p t h)

/-- Witness for C9: a streaming-join extension node passes through `f_up`
unchanged; a join-free projection plan is returned structurally
unchanged; and rewriting a table scan twice is a no-op. -/
theorem rewrite_pass_through_witness :
    f_up (fun _ => none) ⟨300⟩ (.joinExt (.tableScan "J" []) true none) =
        .ok ⟨.joinExt (.tableScan "J" []) true none, false⟩ ∧
    rewrite (fun _ => none) ⟨300⟩
        (.projection [] (.tableScan "A" [⟨some "A", "k", []⟩]) []) =
      .ok ⟨.projection [] (.tableScan "A" [⟨some "A", "k", []⟩]) [], false⟩ ∧
    rewrite (fun _ => none) ⟨300⟩ (.tableScan "A" []) =
      .ok ⟨.tableScan "A" [], false⟩ := by
  refine ⟨(rewrite_pass_through_and_idempotent (fun _ => none) ⟨300⟩).1 _ rfl,
    (rewrite_pass_through_and_idempotent (fun _ => none) ⟨300⟩).2.1 _ rfl, ?_⟩
  exact (rewrite_pass_through_and_idempotent (fun _ => none) ⟨300⟩).2.2
    (.tableScan "A" []) ⟨.tableScan "A" [], false⟩ rfl


end ArroyoJoin
